import Mathlib

/-!
Verification of the serde_versioned repository: a version-union code
generator (the derive macro in serde_versioned_derive/src/lib.rs) and the
runtime migration / format contracts it wires together.  The generator is
embedded as functions over an abstract syntax of derive inputs; the runtime
contracts, whose crate is exercised by the tests but whose source is not in
the repository snapshot, are modelled from the spec where noted.
-/

namespace SerdeVersioned

/-! ## Generator side: embedding of serde_versioned_derive/src/lib.rs -/

/-- One element of the bracketed list in the versioned attribute.  In the
source the elements are parsed as syn::Expr; an element that is a bare path
identifier is kept, anything else falls outside the Expr::Path-with-ident
pattern and is skipped. -/
inductive VerElem where
  | ident (name : String)
  | nonIdent
  deriving DecidableEq, Repr

/-- Token stream handed to VersionsList::parse.  A stream of the shape
kw = [ e1, ..., en ] is represented structurally; any stream that fails the
syn machinery (missing =, missing brackets, bad punctuation) is bad. -/
inductive ParseInput where
  | stream (kw : String) (elems : List VerElem)
  | bad
  deriving DecidableEq, Repr

/-- Result of parsing the attribute: the list of
(version number string, struct identifier) pairs, as in the source struct
VersionsList. -/
structure VersionsList where
  versions : List (String × String)
  deriving DecidableEq, Repr

/-- Enumeration step of VersionsList::parse: for (idx, elem) in
elems.iter().enumerate(), a bare identifier is pushed with version number
(idx + 1).to_string(), anything else is skipped (idx still advances). -/
def parseElems (elems : List VerElem) : List (String × String) :=
  elems.enum.filterMap fun p =>
    match p.2 with
    | .ident n => some (toString (p.1 + 1), n)
    | .nonIdent => none

/-- Generalisation of parseElems with the enumeration starting at s, used
to reason about the slot numbering by induction. -/
def parseElemsFrom (s : Nat) (elems : List VerElem) : List (String × String) :=
  (List.enumFrom s elems).filterMap fun p =>
    match p.2 with
    | .ident n => some (toString (p.1 + 1), n)
    | .nonIdent => none

/-- Embedding of the Parse impl for VersionsList: the leading identifier
must be the word versions, then the bracketed elements are enumerated by
parseElems; a syntactically bad stream is a parse error. -/
def VersionsList.parse : ParseInput → Except String VersionsList
  | .stream kw elems =>
      if kw = "versions" then
        .ok ⟨parseElems elems⟩
      else
        .error ("Expected versions, found " ++ kw)
  | .bad => .error "parse error"

/-- Meta of an attribute: Meta::List carries a token stream, the other Meta
forms (Path, NameValue) are collapsed since the source only inspects
Meta::List. -/
inductive AttrMeta where
  | list (tokens : ParseInput)
  | other
  deriving DecidableEq, Repr

/-- An attribute on the derive input: its path (as a single identifier) and
its meta. -/
structure Attr where
  path : String
  meta : AttrMeta
  deriving DecidableEq, Repr

/-- Body of the attribute loop of extract_versions: for a versioned
attribute holding a Meta::List, parse the tokens as a VersionsList and on
success overwrite the accumulator; a parse error is discarded and the
accumulator is left unchanged; any other attribute is skipped. -/
def extractStep (versions : List (String × String)) (attr : Attr) :
    List (String × String) :=
  if attr.path = "versioned" then
    match attr.meta with
    | .list tokens =>
        match VersionsList.parse tokens with
        | .ok vl => vl.versions
        | .error _ => versions
    | .other => versions
  else versions

/-- Embedding of extract_versions: fold the attribute loop over all
attributes, starting from the empty list. -/
def extract_versions (attrs : List Attr) : List (String × String) :=
  attrs.foldl extractStep []

/-- Shape of the data carried by the derive input, as matched at the field
extraction step of derive_versioned: a struct with named fields, a tuple
struct, a unit struct, or a non-struct item (enum or union). -/
inductive Data where
  | structNamed (fields : List String)
  | structUnnamed
  | structUnit
  | notStruct
  deriving DecidableEq, Repr

/-- The derive input: target identifier, its attributes and its data. -/
structure DeriveInput where
  ident : String
  attrs : List Attr
  data : Data
  deriving DecidableEq, Repr

/-- Description of the code emitted on success: the enum variants (one
(version number, struct identifier) pair each), the latest slot used by
to_version, and the field names copied field for field by to_version. -/
structure Generated where
  variants : List (String × String)
  latest : String × String
  fieldCopies : List String
  deriving DecidableEq, Repr

/-- Outcome of the derive: either a compile error (to_compile_error in the
source) or generated code. -/
inductive DeriveOutput where
  | compileError (msg : String)
  | code (g : Generated)
  deriving DecidableEq, Repr

/-- Error message for an empty versions list, from derive_versioned. -/
def emptyVersionsMsg (name : String) : String :=
  "No version structs specified for " ++ name ++
    ". Please specify at least one version using the versioned(versions = [Version1, ...]) attribute."

/-- Error message for a tuple struct target, from derive_versioned. -/
def unnamedFieldsMsg (name : String) : String :=
  name ++ ": Versioned derive macro only supports structs with named fields (not tuple structs)."

/-- Error message for a unit struct target, from derive_versioned. -/
def unitStructMsg (name : String) : String :=
  name ++ ": Versioned derive macro does not support unit structs. The struct must have at least one named field."

/-- Error message for a non-struct target, from derive_versioned. -/
def notStructMsg (name : String) : String :=
  name ++ ": Versioned derive macro only supports structs, not enums or unions."

/-- Embedding of derive_versioned: extract the versions, error out if the
list is empty, then extract the named fields, erroring out on tuple
structs, unit structs and non-structs; on success emit the enum variants,
the latest slot (versions.last().unwrap()) and the field copies. -/
def derive_versioned (input : DeriveInput) : DeriveOutput :=
  let versions := extract_versions input.attrs
  if h : versions = [] then
    .compileError (emptyVersionsMsg input.ident)
  else
    match input.data with
    | .structNamed fields =>
        .code { variants := versions
                latest := versions.getLast h
                fieldCopies := fields }
    | .structUnnamed => .compileError (unnamedFieldsMsg input.ident)
    | .structUnit => .compileError (unitStructMsg input.ident)
    | .notStruct => .compileError (notStructMsg input.ident)

/-! ## Runtime side: migration contracts and format adapter

The runtime crate serde_versioned is exercised by tests/test.rs but its
source is not part of the snapshot; the definitions below are modelled from
the spec (sections 4.2, 4.3 and 7) and from the behaviour the tests pin
down. -/

/-- Modelled from the spec: the version-conversion error of the runtime
crate (VersionConversionError), missing from the snapshot.  It carries the
originating slot version string, an underlying cause (held abstractly as a
message) and an optional context note. -/
structure VersionConversionError where
  version : String
  cause : String
  context : Option String
  deriving DecidableEq, Repr

/-- Modelled from the spec: the format error of the runtime crate
(FormatError), missing from the snapshot.  Serialize wraps a codec encode
failure; Deserialize wraps a codec decode failure together with the raw
input when available; VersionConversion wraps a migration failure.  E is
the codec error type and T the codec text type. -/
inductive FormatError (E T : Type) where
  | Serialize (err : E)
  | Deserialize (err : E) (input : Option T)
  | VersionConversion (err : VersionConversionError)
  deriving DecidableEq, Repr

/-- Modelled from the spec: the is_deserialize query on FormatError. -/
def FormatError.is_deserialize {E T : Type} : FormatError E T → Bool
  | .Deserialize _ _ => true
  | _ => false

/-- Modelled from the spec: the is_version_conversion (conversion-failure)
query on FormatError. -/
def FormatError.is_version_conversion {E T : Type} : FormatError E T → Bool
  | .VersionConversion _ => true
  | _ => false

/-- Semantics of one generated Versioned implementation over current type
Cur with n + 1 slots: the payload type of each slot, the tag string the
generator rename attribute assigns to each slot, the FromVersion migration
edge of each slot, and the field-for-field projection of the current value
into the last slot (the body of to_version).  This is the generic image of
the code emitted by derive_versioned. -/
structure VersionedImpl (Cur : Type) (n : Nat) where
  Slot : Fin (n + 1) → Type
  tag : Fin (n + 1) → String
  edge : (i : Fin (n + 1)) → Slot i → Cur
  proj : Cur → Slot (Fin.last n)

/-- A value of the generated version enum: a slot index together with a
payload of that slot. -/
def VersionValue {Cur : Type} {n : Nat} (I : VersionedImpl Cur n) : Type :=
  Σ i : Fin (n + 1), I.Slot i

/-- Generated from_version: every match arm wraps the result of the
infallible FromVersion::convert in Ok. -/
def VersionedImpl.from_version {Cur : Type} {n : Nat} (I : VersionedImpl Cur n)
    (v : VersionValue I) : Except VersionConversionError Cur :=
  .ok (I.edge v.1 v.2)

/-- Generated to_version: build the last slot payload by copying every
field of the current value and wrap it in the last variant. -/
def VersionedImpl.to_version {Cur : Type} {n : Nat} (I : VersionedImpl Cur n)
    (c : Cur) : VersionValue I :=
  ⟨Fin.last n, I.proj c⟩

/-- Generated extract_version_string: map a version value to the tag of
its slot, with no migration performed. -/
def VersionedImpl.extract_version_string {Cur : Type} {n : Nat}
    (I : VersionedImpl Cur n) (v : VersionValue I) : String :=
  I.tag v.1

/-- Modelled from the spec: to_format of the runtime crate, missing from
the snapshot.  It projects the value to its latest-tagged variant, invokes
the supplied encode function on the version value, and wraps a codec
failure as a Serialize format error. -/
def VersionedImpl.to_format {Cur : Type} {n : Nat} {E T : Type}
    (I : VersionedImpl Cur n) (c : Cur)
    (encode : VersionValue I → Except E T) : Except (FormatError E T) T :=
  match encode (I.to_version c) with
  | .ok t => .ok t
  | .error e => .error (.Serialize e)

/-- Modelled from the spec: from_format of the runtime crate, missing from
the snapshot.  It invokes the supplied decode function on the input; a
decode failure becomes a Deserialize format error carrying the raw input;
a decoded version value is migrated by from_version, whose failure becomes
a VersionConversion format error. -/
def VersionedImpl.from_format {Cur : Type} {n : Nat} {E T : Type}
    (I : VersionedImpl Cur n) (input : T)
    (decode : T → Except E (VersionValue I)) : Except (FormatError E T) Cur :=
  match decode input with
  | .error e => .error (.Deserialize e (some input))
  | .ok v =>
      match I.from_version v with
      | .ok c => .ok c
      | .error ce => .error (.VersionConversion ce)

/-- Replace the migration edges of an implementation, keeping slots, tags
and projection; used to state that a code path never consults the edges. -/
def VersionedImpl.withEdges {Cur : Type} {n : Nat} (I : VersionedImpl Cur n)
    (e : (i : Fin (n + 1)) → I.Slot i → Cur) : VersionedImpl Cur n :=
  { I with edge := e }

/-! ## Wire shape

A document models the externally visible tagged map of the wire shape (a
top-level map with a version field holding the slot index as a string,
and the slot fields alongside it).  The concrete text codecs (JSON, TOML,
YAML) are external collaborators; the document is their common parsed
form. -/

/-- A primitive wire value: enough for the string and integer fields of
the fixtures. -/
inductive JValue where
  | str (s : String)
  | num (n : Nat)
  deriving DecidableEq, Repr

/-- A wire document: a flat association list of fields. -/
def Doc : Type := List (String × JValue)

instance : DecidableEq Doc := inferInstanceAs (DecidableEq (List (String × JValue)))

/-- First value bound to a key in a document. -/
def lookupField (key : String) (d : Doc) : Option JValue :=
  (d.find? fun p => p.1 = key).map (·.2)

/-- Modelled from the spec: the serde Serialize instance generated for the
version enum by the tag = version attribute, missing from the snapshot
(serde machinery).  The variant tag is emitted first under the key
version, then the slot fields, flattened alongside it. -/
def VersionedImpl.encodeTagged {Cur : Type} {n : Nat} (I : VersionedImpl Cur n)
    (fieldsOf : (i : Fin (n + 1)) → I.Slot i → Doc)
    (v : VersionValue I) : Doc :=
  ("version", .str (I.tag v.1)) :: fieldsOf v.1 v.2

/-- Slot whose tag equals the given string, if any. -/
def VersionedImpl.findSlot {Cur : Type} {n : Nat} (I : VersionedImpl Cur n)
    (t : String) : Option (Fin (n + 1)) :=
  (List.finRange (n + 1)).find? fun i => I.tag i = t

/-- Modelled from the spec: the serde Deserialize instance generated for
the version enum by the tag = version attribute, missing from the snapshot
(serde machinery).  The version field selects the slot by tag; a missing
or non-string tag, an unknown tag, or a slot payload failure is a decode
error, and no migration is involved. -/
def VersionedImpl.decodeTagged {Cur : Type} {n : Nat} (I : VersionedImpl Cur n)
    (slotDec : (i : Fin (n + 1)) → Doc → Except String (I.Slot i))
    (d : Doc) : Except String (VersionValue I) :=
  match lookupField "version" d with
  | some (.str t) =>
      match I.findSlot t with
      | some i => (slotDec i d).map fun p => ⟨i, p⟩
      | none => .error ("unknown variant " ++ t)
  | _ => .error "missing field version"

/-! ## The test fixture from tests/test.rs

The struct User with versions = [UserV1, UserV2], the two historical slot
structs, their FromVersion impls, and the code the derive macro expands to
for this input (enum UserVersion and the Versioned impl), written out by
hand from the quote templates of lib.rs. -/

/-- Slot 1 historical struct from tests/test.rs. -/
structure UserV1 where
  name : String
  deriving DecidableEq, Repr

/-- Slot 2 historical struct from tests/test.rs. -/
structure UserV2 where
  name : String
  age : Nat
  deriving DecidableEq, Repr

/-- Current struct from tests/test.rs. -/
structure User where
  name : String
  age : Nat
  deriving DecidableEq, Repr

/-- FromVersion of User for UserV1 from tests/test.rs: the missing age
field defaults to zero. -/
def UserV1.convert (v : UserV1) : User :=
  { name := v.name, age := 0 }

/-- FromVersion of User for UserV2 from tests/test.rs: field-for-field
identity. -/
def UserV2.convert (v : UserV2) : User :=
  { name := v.name, age := v.age }

/-- The version enum the derive macro generates for User: one variant per
declared slot, tagged "1" and "2". -/
inductive UserVersion where
  | Version1 (v : UserV1)
  | Version2 (v : UserV2)
  deriving DecidableEq, Repr

/-- Generated from_version for User: each arm wraps convert in Ok. -/
def User.from_version : UserVersion → Except VersionConversionError User
  | .Version1 v => .ok v.convert
  | .Version2 v => .ok v.convert

/-- Generated to_version for User: copy both fields into the last slot
struct and wrap it in the last variant. -/
def User.to_version (u : User) : UserVersion :=
  .Version2 { name := u.name, age := u.age }

/-- Generated extract_version_string for User. -/
def User.extract_version_string : UserVersion → String
  | .Version1 _ => "1"
  | .Version2 _ => "2"

/-- Payload types of the two User slots, as a family over Fin 2. -/
def UserSlot : Fin 2 → Type
  | ⟨0, _⟩ => UserV1
  | ⟨1, _⟩ => UserV2

/-- Migration edges of the two User slots. -/
def UserEdge : (i : Fin 2) → UserSlot i → User
  | ⟨0, _⟩, v => v.convert
  | ⟨1, _⟩, v => v.convert

/-- The generic-model instance for the User fixture: slots UserV1 and
UserV2, tags "1" and "2" as assigned by the generator, the FromVersion
edges, and the field-for-field projection into UserV2. -/
def UserImpl : VersionedImpl User 1 where
  Slot := UserSlot
  tag := fun i => toString (i.val + 1)
  edge := UserEdge
  proj := fun u => ({ name := u.name, age := u.age } : UserV2)

/-- Wire fields of each User slot (the serde Serialize of UserV1 and
UserV2, modelled from the spec wire shape). -/
def userFields : (i : Fin 2) → UserSlot i → Doc
  | ⟨0, _⟩, v => [("name", .str v.name)]
  | ⟨1, _⟩, v => [("name", .str v.name), ("age", .num v.age)]

/-- Wire decoding of each User slot (the serde Deserialize of UserV1 and
UserV2, modelled from the spec wire shape). -/
def userSlotDec : (i : Fin 2) → Doc → Except String (UserSlot i)
  | ⟨0, _⟩, d =>
      match lookupField "name" d with
      | some (.str nm) => .ok (⟨nm⟩ : UserV1)
      | _ => .error "missing field name"
  | ⟨1, _⟩, d =>
      match lookupField "name" d, lookupField "age" d with
      | some (.str nm), some (.num a) => .ok (⟨nm, a⟩ : UserV2)
      | _, _ => .error "missing field"

/-! ## Concrete fixtures used by the witnesses -/

/-- A trivially conforming encode for the User union: a constant document
name (the codec itself is an external collaborator). -/
def demoEncode : VersionValue UserImpl → Except String String :=
  fun _ => .ok "doc"

/-- The matching decode: the constant document name decodes back to the
latest-tagged variant of the demo user. -/
def demoDecode : String → Except String (VersionValue UserImpl) :=
  fun s => if s = "doc" then .ok (UserImpl.to_version ⟨"Mia", 29⟩) else .error s

/-- A decode that always fails, standing for a codec given syntactically
invalid input. -/
def failingDecode : String → Except String (VersionValue UserImpl) :=
  fun s => .error ("invalid input " ++ s)

/-- Derive input with a versioned attribute whose token stream is
syntactically malformed. -/
def malformedAttrInput : DeriveInput :=
  ⟨"User", [⟨"versioned", .list .bad⟩], .structNamed ["name", "age"]⟩

/-- Derive input for the User fixture of tests/test.rs. -/
def userDeriveInput : DeriveInput :=
  ⟨"User",
    [⟨"versioned", .list (.stream "versions" [.ident "UserV1", .ident "UserV2"])⟩],
    .structNamed ["name", "age"]⟩

/-- Derive input for an enum target carrying a well-formed versions
list. -/
def enumDeriveInput : DeriveInput :=
  ⟨"Bad", [⟨"versioned", .list (.stream "versions" [.ident "BadV1"])⟩], .notStruct⟩

end SerdeVersioned

namespace SerdeVersioned

/-! ## Theorems -/

/-- Claim C1.  Round-trip law: when the latest slot migration edge is the
field-for-field identity (as for the UserV2 edge of the fixture),
from_version of to_version of any current value returns Ok of that value. -/
theorem roundtrip_from_version_to_version {Cur : Type} {n : Nat}
    (I : VersionedImpl Cur n)
    (hid : ∀ c, I.edge (Fin.last n) (I.proj c) = c) (c : Cur) :
    I.from_version (I.to_version c) = .ok c := by
  simp [VersionedImpl.from_version, VersionedImpl.to_version, hid]

/-- Witness for C1 at the User fixture and the value of
test_version_conversion. -/
theorem roundtrip_from_version_to_version_witness :
    UserImpl.from_version (UserImpl.to_version ⟨"Alice", 30⟩) = .ok ⟨"Alice", 30⟩ :=
  roundtrip_from_version_to_version UserImpl (fun _ => rfl) ⟨"Alice", 30⟩

/-- Claim C2.  Format round-trip law: for a codec pair that is conforming
at the value (encode of the latest-tagged variant succeeds and decode
inverts it), to_format succeeds and from_format of its output returns Ok
of the original value, given the identity latest edge. -/
theorem format_roundtrip {Cur : Type} {n : Nat} {E T : Type}
    (I : VersionedImpl Cur n)
    (hid : ∀ c, I.edge (Fin.last n) (I.proj c) = c)
    (encode : VersionValue I → Except E T)
    (decode : T → Except E (VersionValue I))
    (c : Cur) (t : T)
    (henc : encode (I.to_version c) = .ok t)
    (hdec : decode t = .ok (I.to_version c)) :
    I.to_format c encode = .ok t ∧ I.from_format t decode = .ok c := by
  constructor
  · simp [VersionedImpl.to_format, henc]
  · simp [VersionedImpl.from_format, hdec, VersionedImpl.from_version,
      VersionedImpl.to_version, hid]

/-- Witness for C2 at the User fixture with the demo codec and the value
of test_roundtrip_all_formats. -/
theorem format_roundtrip_witness :
    UserImpl.to_format ⟨"Mia", 29⟩ demoEncode = .ok "doc" ∧
      UserImpl.from_format "doc" demoDecode = .ok ⟨"Mia", 29⟩ :=
  format_roundtrip UserImpl (fun _ => rfl) demoEncode demoDecode
    ⟨"Mia", 29⟩ "doc" rfl (by simp [demoDecode])

/-- Claim C10.  The generated from_version never returns an error: every
match arm wraps the infallible convert in Ok, both in the hand-expanded
User fixture and in the generic model of the generated dispatch. -/
theorem from_version_never_errors :
    (∀ v : UserVersion, ∃ u, User.from_version v = .ok u) ∧
      ∀ (Cur : Type) (n : Nat) (I : VersionedImpl Cur n) (v : VersionValue I),
        ∃ c, I.from_version v = .ok c := by
  constructor
  · intro v
    cases v with
    | Version1 v => exact ⟨v.convert, rfl⟩
    | Version2 v => exact ⟨v.convert, rfl⟩
  · intro Cur n I v
    exact ⟨I.edge v.1 v.2, rfl⟩

/-- Claim C3.  Tag fidelity: with the generator tag assignment (slot i
carries the string of i + 1), to_format through the tagged wire encoder
succeeds and its output document holds a top-level version field equal to
the string of the last slot index n + 1, for every current value and every
slot count. -/
theorem to_format_tag_fidelity {Cur : Type} {n : Nat} {E : Type}
    (I : VersionedImpl Cur n)
    (fieldsOf : (i : Fin (n + 1)) → I.Slot i → Doc)
    (htag : ∀ i, I.tag i = toString (i.val + 1)) (c : Cur) :
    ∃ d, I.to_format (E := E) c (fun v => .ok (I.encodeTagged fieldsOf v)) = .ok d ∧
      lookupField "version" d = some (.str (toString (n + 1))) := by
  refine ⟨I.encodeTagged fieldsOf (I.to_version c), rfl, ?_⟩
  simp [VersionedImpl.encodeTagged, lookupField, VersionedImpl.to_version, htag,
    Fin.last]

/-- Witness for C3 at the User fixture and the value of
test_to_format_json. -/
theorem to_format_tag_fidelity_witness :
    ∃ d, UserImpl.to_format (E := String) ⟨"Frank", 40⟩
        (fun v => .ok (UserImpl.encodeTagged userFields v)) = .ok d ∧
      lookupField "version" d = some (.str (toString 2)) :=
  to_format_tag_fidelity UserImpl userFields (fun _ => rfl) ⟨"Frank", 40⟩

/-- Claim C4.  Unknown tag rejection: when the version field of the input
document matches no slot tag, from_format through the tagged wire decoder
fails with a Deserialize error carrying the raw input, the same error
results whatever the migration edges are (the migration dispatch is never
consulted), and the error answers the deserialize query positively and the
conversion query negatively. -/
theorem unknown_tag_rejected {Cur : Type} {n : Nat}
    (I : VersionedImpl Cur n)
    (slotDec : (i : Fin (n + 1)) → Doc → Except String (I.Slot i))
    (d : Doc) (t : String)
    (hver : lookupField "version" d = some (.str t))
    (hno : ∀ i, I.tag i ≠ t) :
    I.from_format d (I.decodeTagged slotDec) =
        .error (.Deserialize ("unknown variant " ++ t) (some d)) ∧
      (∀ e : (i : Fin (n + 1)) → I.Slot i → Cur,
        (I.withEdges e).from_format d ((I.withEdges e).decodeTagged slotDec) =
          .error (.Deserialize ("unknown variant " ++ t) (some d))) ∧
      (FormatError.Deserialize ("unknown variant " ++ t) (some d) : FormatError String Doc).is_deserialize = true ∧
      (FormatError.Deserialize ("unknown variant " ++ t) (some d) : FormatError String Doc).is_version_conversion = false := by
  have hfind : I.findSlot t = none := by
    apply List.find?_eq_none.mpr
    intro i _
    simp [hno i]
  have hdec : I.decodeTagged slotDec d = .error ("unknown variant " ++ t) := by
    simp [VersionedImpl.decodeTagged, hver, hfind]
  refine ⟨?_, ?_, rfl, rfl⟩
  · simp [VersionedImpl.from_format, hdec]
  · intro e
    have hfind2 : (I.withEdges e).findSlot t = none := by
      apply List.find?_eq_none.mpr
      intro i _
      simp [VersionedImpl.withEdges, hno i]
    have hdec2 : (I.withEdges e).decodeTagged slotDec d = .error ("unknown variant " ++ t) := by
      simp [VersionedImpl.decodeTagged, hver, hfind2]
    simp [VersionedImpl.from_format, hdec2]

/-- Witness for C4 at the User fixture with the version 99 input of
test_invalid_version_format. -/
theorem unknown_tag_rejected_witness :
    UserImpl.from_format [("version", .str "99"), ("name", .str "Test")]
        (UserImpl.decodeTagged userSlotDec) =
        .error (.Deserialize ("unknown variant " ++ "99")
          (some [("version", .str "99"), ("name", .str "Test")])) ∧
      (∀ e : (i : Fin 2) → UserImpl.Slot i → User,
        (UserImpl.withEdges e).from_format [("version", .str "99"), ("name", .str "Test")]
            ((UserImpl.withEdges e).decodeTagged userSlotDec) =
          .error (.Deserialize ("unknown variant " ++ "99")
            (some [("version", .str "99"), ("name", .str "Test")]))) ∧
      (FormatError.Deserialize ("unknown variant " ++ "99")
          (some [("version", .str "99"), ("name", .str "Test")]) : FormatError String Doc).is_deserialize = true ∧
      (FormatError.Deserialize ("unknown variant " ++ "99")
          (some [("version", .str "99"), ("name", .str "Test")]) : FormatError String Doc).is_version_conversion = false :=
  unknown_tag_rejected UserImpl userSlotDec
    [("version", .str "99"), ("name", .str "Test")] "99" (by decide) (by decide)

/-- Claim C5.  Scenario: encoding the user David, aged 35, yields the
document tagged version "2" with name David and age 35; decoding the
version 1 document with name Eve yields the current value with name Eve
and age 0, the missing field defaulting to zero through the slot 1 edge. -/
theorem migration_defaulting_scenario :
    UserImpl.to_format (E := String) ⟨"David", 35⟩
        (fun v => .ok (UserImpl.encodeTagged userFields v)) =
      .ok [("version", .str "2"), ("name", .str "David"), ("age", .num 35)] ∧
    UserImpl.from_format [("version", .str "1"), ("name", .str "Eve")]
        (UserImpl.decodeTagged userSlotDec) = .ok ⟨"Eve", 0⟩ := by
  constructor
  · rfl
  · rfl

/-- Claim C6.  Malformed input isolation: when the codec decode fails,
from_format fails with a Deserialize error carrying the codec error and
the raw input, and the error answers the deserialize query positively and
the conversion query negatively. -/
theorem malformed_input_isolated {Cur : Type} {n : Nat} {E T : Type}
    (I : VersionedImpl Cur n)
    (decode : T → Except E (VersionValue I))
    (input : T) (e : E)
    (hdec : decode input = .error e) :
    I.from_format input decode = .error (.Deserialize e (some input)) ∧
      (FormatError.Deserialize e (some input) : FormatError E T).is_deserialize = true ∧
      (FormatError.Deserialize e (some input) : FormatError E T).is_version_conversion = false := by
  refine ⟨?_, rfl, rfl⟩
  simp [VersionedImpl.from_format, hdec]

/-- Witness for C6 at the User fixture with an always-failing decode on a
syntactically invalid input. -/
theorem malformed_input_isolated_witness :
    UserImpl.from_format "not valid json" failingDecode =
        .error (.Deserialize ("invalid input " ++ "not valid json") (some "not valid json")) ∧
      (FormatError.Deserialize ("invalid input " ++ "not valid json")
          (some "not valid json") : FormatError String String).is_deserialize = true ∧
      (FormatError.Deserialize ("invalid input " ++ "not valid json")
          (some "not valid json") : FormatError String String).is_version_conversion = false :=
  malformed_input_isolated UserImpl failingDecode "not valid json"
    ("invalid input " ++ "not valid json") rfl

/-- Claim C7.  Build-time validation: the derive returns a compile error
when the extracted versions list is empty (with a message spelling out the
required declaration shape), and likewise for a tuple struct target, a
unit struct target and a non-struct target. -/
theorem build_time_validation (input : DeriveInput) :
    (extract_versions input.attrs = [] →
      derive_versioned input = .compileError (emptyVersionsMsg input.ident) ∧
        ∃ pre post,
          emptyVersionsMsg input.ident = pre ++ "versioned(versions = [" ++ post) ∧
    (input.data = .structUnnamed → ∃ m, derive_versioned input = .compileError m) ∧
    (input.data = .structUnit → ∃ m, derive_versioned input = .compileError m) ∧
    (input.data = .notStruct → ∃ m, derive_versioned input = .compileError m) := by
  refine ⟨fun h => ⟨by simp [derive_versioned, h], ?_⟩, fun h => ?_, fun h => ?_, fun h => ?_⟩
  · refine ⟨"No version structs specified for " ++ input.ident ++
      ". Please specify at least one version using the ",
      "Version1, ...]) attribute.", ?_⟩
    simp only [emptyVersionsMsg, String.append_assoc]
    rfl
  · by_cases hv : extract_versions input.attrs = []
    · exact ⟨emptyVersionsMsg input.ident, by simp [derive_versioned, hv]⟩
    · exact ⟨unnamedFieldsMsg input.ident, by simp [derive_versioned, hv, h]⟩
  · by_cases hv : extract_versions input.attrs = []
    · exact ⟨emptyVersionsMsg input.ident, by simp [derive_versioned, hv]⟩
    · exact ⟨unitStructMsg input.ident, by simp [derive_versioned, hv, h]⟩
  · by_cases hv : extract_versions input.attrs = []
    · exact ⟨emptyVersionsMsg input.ident, by simp [derive_versioned, hv]⟩
    · exact ⟨notStructMsg input.ident, by simp [derive_versioned, hv, h]⟩

/-- Witness for C7 at an empty declaration and at an enum target. -/
theorem build_time_validation_witness :
    (derive_versioned ⟨"User", [], .structNamed ["name", "age"]⟩ =
        .compileError (emptyVersionsMsg "User") ∧
      ∃ pre post, emptyVersionsMsg "User" = pre ++ "versioned(versions = [" ++ post) ∧
    ∃ m, derive_versioned enumDeriveInput = .compileError m :=
  ⟨(build_time_validation ⟨"User", [], .structNamed ["name", "age"]⟩).1 rfl,
    (build_time_validation enumDeriveInput).2.2.2 rfl⟩

/-- Counterexample for claim C8: with the element list
[ident A, non-ident, ident B] the parse succeeds and returns an entry list
whose second entry carries version number "3", not the string render of 2:
a non-identifier element is skipped but still consumes its slot number. -/
theorem slot_numbering_counterexample :
    VersionsList.parse (.stream "versions" [.ident "A", .nonIdent, .ident "B"]) =
        .ok ⟨[("1", "A"), ("3", "B")]⟩ ∧
      [("1", "A"), ("3", "B")].get? 1 = some ("3", "B") ∧
      ("3" : String) ≠ toString (1 + 1) := by
  refine ⟨rfl, rfl, by decide⟩

/-- Dense numbering of parseElemsFrom on all-identifier lists, proved by
induction with a general start index. -/
theorem parseElemsFrom_dense (elems : List VerElem)
    (h : ∀ e ∈ elems, ∃ nm, e = VerElem.ident nm) :
    ∀ s : Nat, (parseElemsFrom s elems).length = elems.length ∧
      ∀ k (hk : k < (parseElemsFrom s elems).length),
        ((parseElemsFrom s elems).get ⟨k, hk⟩).1 = toString (s + k + 1) := by
  induction elems with
  | nil =>
      intro s
      exact ⟨rfl, fun k hk => absurd hk (by simp [parseElemsFrom, List.enumFrom])⟩
  | cons e es ih =>
      intro s
      obtain ⟨nm, rfl⟩ := h e (List.mem_cons_self e es)
      have hes : ∀ e ∈ es, ∃ nm, e = VerElem.ident nm :=
        fun e he => h e (List.mem_cons_of_mem _ he)
      have hrec : parseElemsFrom s (VerElem.ident nm :: es) =
          (toString (s + 1), nm) :: parseElemsFrom (s + 1) es := rfl
      obtain ⟨ihlen, ihget⟩ := ih hes (s + 1)
      refine ⟨by rw [hrec]; simp [ihlen], ?_⟩
      intro k hk
      match k with
      | 0 => rfl
      | k + 1 =>
          have hk2 : k < (parseElemsFrom (s + 1) es).length := by
            rw [hrec] at hk
            exact Nat.lt_of_succ_lt_succ hk
          have hstep : (parseElemsFrom s (VerElem.ident nm :: es)).get ⟨k + 1, hk⟩ =
              (parseElemsFrom (s + 1) es).get ⟨k, hk2⟩ := rfl
          rw [hstep, ihget k hk2]
          exact congrArg toString (by omega)

/-- Claim C8 (amended).  Dense slot numbering on well-formed lists: when
every element of the declared list is a bare identifier, parsing succeeds
and the k-th returned entry (0-based k) carries exactly the string render
of k + 1, so the numbering is dense 1..N; in general each entry carries
the render of its original declared position plus one, so a non-identifier
element is skipped and its number with it. -/
theorem slot_numbering_dense (elems : List VerElem)
    (h : ∀ e ∈ elems, ∃ nm, e = VerElem.ident nm) :
    ∃ vl, VersionsList.parse (.stream "versions" elems) = .ok vl ∧
      vl.versions.length = elems.length ∧
      ∀ k (hk : k < vl.versions.length),
        (vl.versions.get ⟨k, hk⟩).1 = toString (k + 1) := by
  have hpe : parseElems elems = parseElemsFrom 0 elems := rfl
  obtain ⟨hlen, hget⟩ := parseElemsFrom_dense elems h 0
  refine ⟨⟨parseElems elems⟩, by simp [VersionsList.parse], by rw [hpe]; exact hlen, ?_⟩
  intro k hk
  have hk0 : k < (parseElemsFrom 0 elems).length := by rw [hpe] at hk; exact hk
  have := hget k hk0
  simp only [Nat.zero_add] at this
  simpa [hpe] using this

/-- Witness for the amended C8 at the two-identifier list of the User
fixture. -/
theorem slot_numbering_dense_witness :
    ∃ vl, VersionsList.parse
        (.stream "versions" [.ident "UserV1", .ident "UserV2"]) = .ok vl ∧
      vl.versions.length = [VerElem.ident "UserV1", VerElem.ident "UserV2"].length ∧
      ∀ k (hk : k < vl.versions.length),
        (vl.versions.get ⟨k, hk⟩).1 = toString (k + 1) := by
  have hall : ∀ e ∈ [VerElem.ident "UserV1", VerElem.ident "UserV2"],
      ∃ nm, e = VerElem.ident nm := by
    intro e he
    simp only [List.mem_cons, List.not_mem_nil, or_false] at he
    rcases he with rfl | rfl
    · exact ⟨"UserV1", rfl⟩
    · exact ⟨"UserV2", rfl⟩
  exact slot_numbering_dense [VerElem.ident "UserV1", VerElem.ident "UserV2"] hall

/-- Claim C9.  Silent malformed-attribute degradation: when every
versioned Meta::List attribute carries a token stream whose parse fails,
extract_versions returns the empty list (the parse errors are discarded),
and the derive then reports the empty-versions error as if no versions had
been declared. -/
theorem malformed_attribute_silently_ignored (name : String)
    (attrs : List Attr) (d : Data)
    (h : ∀ a ∈ attrs, a.path = "versioned" → ∀ tk, a.meta = .list tk →
        ∃ e, VersionsList.parse tk = .error e) :
    extract_versions attrs = [] ∧
      derive_versioned ⟨name, attrs, d⟩ = .compileError (emptyVersionsMsg name) := by
  have hex : extract_versions attrs = [] := by
    unfold extract_versions
    induction attrs with
    | nil => rfl
    | cons a as ih =>
        have ha : extractStep [] a = [] := by
          unfold extractStep
          by_cases hp : a.path = "versioned"
          · cases hm : a.meta with
            | list tk =>
                obtain ⟨e, he⟩ := h a (List.mem_cons_self a as) hp tk hm
                simp [hp, he]
            | other => simp [hp]
          · simp [hp]
        rw [List.foldl_cons, ha]
        exact ih fun a' ha' => h a' (List.mem_cons_of_mem _ ha')
  exact ⟨hex, by simp [derive_versioned, hex]⟩

/-- Witness for C9 at a derive input whose versioned attribute carries a
syntactically bad token stream. -/
theorem malformed_attribute_silently_ignored_witness :
    extract_versions malformedAttrInput.attrs = [] ∧
      derive_versioned malformedAttrInput = .compileError (emptyVersionsMsg "User") := by
  have hall : ∀ a ∈ malformedAttrInput.attrs, a.path = "versioned" →
      ∀ tk, a.meta = AttrMeta.list tk → ∃ e, VersionsList.parse tk = .error e := by
    intro a ha _ tk htk
    simp only [malformedAttrInput, List.mem_cons, List.not_mem_nil, or_false] at ha
    subst ha
    simp only [AttrMeta.list.injEq] at htk
    subst htk
    exact ⟨"parse error", rfl⟩
  exact malformed_attribute_silently_ignored "User" malformedAttrInput.attrs
    (.structNamed ["name", "age"]) hall

end SerdeVersioned
